import Mathlib

/-!
Shallow embedding of the `ec-slimloader-descriptors` library (src/src/lib.rs).

Memory is modelled as a total function from byte addresses to bytes; every
read takes the byte modulo 256 so arbitrary functions are admissible.  All
u32 fields are modelled as `Nat` with explicit `% 2^32` where the source's
machine arithmetic matters.  Multi-byte fields are little-endian, matching
the packed `repr(C)` layout on the little-endian targets the crate serves.
Fallible Rust functions returning `Result<_, ParseError>` become
`Except ParseError _`; the `unwrap` inside `get_active_slot` becomes
`Option`.
-/

namespace SlimloaderDescriptors

/-- Byte-addressed memory. -/
def Mem : Type := Nat → Nat

/-- Read one byte (reduced mod 256) at address `a`. -/
def byteAt (m : Mem) (a : Nat) : Nat := m a % 256

/-- Read a little-endian u32 at address `a`, as the packed struct load does. -/
def readU32 (m : Mem) (a : Nat) : Nat :=
  byteAt m a + 256 * byteAt m (a + 1) + 65536 * byteAt m (a + 2) +
    16777216 * byteAt m (a + 3)

/-- Little-endian 4-byte serialization of a u32 value. -/
def u32ToBytes (x : Nat) : List Nat :=
  [x % 256, x / 256 % 256, x / 65536 % 256, x / 16777216 % 256]

/-- Memory holding the byte list `bs` starting at address 0 (0 elsewhere). -/
def memOfBytes : List Nat → Mem
  | [], _ => 0
  | b :: _, 0 => b
  | _ :: bs, a + 1 => memOfBytes bs a

/-- Generator polynomial of CRC-32/CKSUM (`CRC_32_CKSUM` in the `crc` crate). -/
def CRC32_CKSUM_POLY : Nat := 0x04C11DB7

/-- One non-reflected CRC shift step on a 32-bit register. -/
def crcShift (c : Nat) : Nat :=
  if c < 2 ^ 31 then c * 2 % 2 ^ 32 else (c * 2 ^^^ CRC32_CKSUM_POLY) % 2 ^ 32

/-- Feed one byte into the CRC-32/CKSUM register (non-reflected, MSB first). -/
def crcFeedByte (c b : Nat) : Nat :=
  crcShift (crcShift (crcShift (crcShift (crcShift (crcShift (crcShift (crcShift
    ((c ^^^ b % 256 * 2 ^ 24) % 2 ^ 32))))))))

/-- CRC-32/CKSUM of a byte list: init 0, non-reflected, final xor 0xFFFFFFFF.
This is `Crc::<u32>::new(&CRC_32_CKSUM).checksum` from the source. -/
def crc32_cksum (bs : List Nat) : Nat :=
  (bs.foldl crcFeedByte 0) ^^^ 0xFFFFFFFF

/-- `BOOT_REGION_DESCRIPTOR_SIGNATURE` from the source. -/
def BOOT_REGION_DESCRIPTOR_SIGNATURE : Nat := 0x22222222

/-- Build-time injected crate version, packed `0xMMmmmmpp` by build.rs.
The concrete Cargo version numbers are external build metadata; the claims
are independent of the packed value, which is a u32 by construction. -/
def DESCRIPTOR_VERSION : Nat := 0 * 2 ^ 24 + 1 * 2 ^ 8 + 0

/-- `size_of::<BootableRegionDescriptorHeader>()` for the packed layout. -/
def BOOT_REGION_DESCRIPTOR_SIZE : Nat := 32

/-- `size_of::<AppImageDescriptor>()` for the packed layout. -/
def APP_IMAGE_DESCRIPTOR_SIZE : Nat := 44

/-- `APP_IMAGE_FLAG_NONE`. -/
def APP_IMAGE_FLAG_NONE : Nat := 0

/-- `APP_IMAGE_FLAG_COPY_TO_EXECUTION_ADDRESS` (bit 0). -/
def APP_IMAGE_FLAG_COPY_TO_EXECUTION_ADDRESS : Nat := 1

/-- `APP_IMAGE_FLAG_SKIP_IMAGE_CRC_CHECK` (bit 1). -/
def APP_IMAGE_FLAG_SKIP_IMAGE_CRC_CHECK : Nat := 2

/-- The descriptor region header (`BootableRegionDescriptorHeader`). -/
structure BootableRegionDescriptorHeader where
  signature : Nat
  descriptor_version : Nat
  descriptor_header_size_bytes : Nat
  app_descriptor_size_bytes : Nat
  app_descriptor_base_address : Nat
  num_app_slots : Nat
  active_app_slot : Nat
  header_crc : Nat
deriving DecidableEq, Repr

/-- The app image descriptor (`AppImageDescriptor`). -/
structure AppImageDescriptor where
  descriptor_version : Nat
  app_slot_number : Nat
  app_version : Nat
  security_version : Nat
  flags : Nat
  stored_address : Nat
  image_size_bytes : Nat
  stored_crc_address : Nat
  execution_copy_size_bytes : Nat
  execution_address : Nat
  descriptor_crc : Nat
deriving DecidableEq, Repr

/-- Descriptor parsing error conditions (`ParseError`).  The raw pointer in
`InvalidAppCrc` is modelled as the numeric address. -/
inductive ParseError where
  | InvalidSignature
  | InvalidHeaderCrc (found : Nat) (expected : Nat)
  | InvalidAppCrc (address : Nat) (found : Nat) (expected : Nat)
  | InvalidAppSlot
  | InvalidSlotCount
deriving DecidableEq, Repr

namespace BootableRegionDescriptorHeader

/-- The unchecked memory load `*(address as *const BootableRegionDescriptorHeader)`. -/
def read (m : Mem) (a : Nat) : BootableRegionDescriptorHeader :=
  { signature := readU32 m a
    descriptor_version := readU32 m (a + 4)
    descriptor_header_size_bytes := readU32 m (a + 8)
    app_descriptor_size_bytes := readU32 m (a + 12)
    app_descriptor_base_address := readU32 m (a + 16)
    num_app_slots := readU32 m (a + 20)
    active_app_slot := readU32 m (a + 24)
    header_crc := readU32 m (a + 28) }

/-- `BootableRegionDescriptorHeader::as_bytes` (packed little-endian layout). -/
def as_bytes (h : BootableRegionDescriptorHeader) : List Nat :=
  u32ToBytes h.signature ++ u32ToBytes h.descriptor_version ++
    u32ToBytes h.descriptor_header_size_bytes ++
    u32ToBytes h.app_descriptor_size_bytes ++
    u32ToBytes h.app_descriptor_base_address ++
    u32ToBytes h.num_app_slots ++ u32ToBytes h.active_app_slot ++
    u32ToBytes h.header_crc

/-- `BootableRegionDescriptorHeader::compute_crc`: CRC over all bytes except
the trailing 4-byte `header_crc` field. -/
def compute_crc (h : BootableRegionDescriptorHeader) : Nat :=
  crc32_cksum (h.as_bytes.take (BOOT_REGION_DESCRIPTOR_SIZE - 4))

/-- `BootableRegionDescriptorHeader::is_crc_valid`. -/
def is_crc_valid (h : BootableRegionDescriptorHeader) : Bool :=
  h.header_crc == h.compute_crc

/-- `BootableRegionDescriptorHeader::from_address`. -/
def from_address (m : Mem) (address : Nat) :
    Except ParseError BootableRegionDescriptorHeader :=
  let unvalidated := read m address
  if unvalidated.signature ≠ BOOT_REGION_DESCRIPTOR_SIGNATURE then
    .error .InvalidSignature
  else if !unvalidated.is_crc_valid then
    .error (.InvalidHeaderCrc unvalidated.header_crc unvalidated.compute_crc)
  else if unvalidated.num_app_slots < 1 then
    .error .InvalidSlotCount
  else if unvalidated.num_app_slots ≤ unvalidated.active_app_slot then
    .error .InvalidAppSlot
  else
    .ok unvalidated

/-- `BootableRegionDescriptorHeader::new` (const builder, no validation). -/
def new (app_slot_count active_app_slot app_descriptor_address : Nat) :
    BootableRegionDescriptorHeader :=
  let this : BootableRegionDescriptorHeader :=
    { signature := BOOT_REGION_DESCRIPTOR_SIGNATURE
      descriptor_version := DESCRIPTOR_VERSION
      descriptor_header_size_bytes := BOOT_REGION_DESCRIPTOR_SIZE
      app_descriptor_size_bytes := APP_IMAGE_DESCRIPTOR_SIZE
      app_descriptor_base_address := app_descriptor_address
      num_app_slots := app_slot_count
      active_app_slot := active_app_slot
      header_crc := 0 }
  { this with header_crc := this.compute_crc }

end BootableRegionDescriptorHeader

namespace AppImageDescriptor

/-- The unchecked memory load `*(address as *const AppImageDescriptor)`. -/
def read (m : Mem) (a : Nat) : AppImageDescriptor :=
  { descriptor_version := readU32 m a
    app_slot_number := readU32 m (a + 4)
    app_version := readU32 m (a + 8)
    security_version := readU32 m (a + 12)
    flags := readU32 m (a + 16)
    stored_address := readU32 m (a + 20)
    image_size_bytes := readU32 m (a + 24)
    stored_crc_address := readU32 m (a + 28)
    execution_copy_size_bytes := readU32 m (a + 32)
    execution_address := readU32 m (a + 36)
    descriptor_crc := readU32 m (a + 40) }

/-- `AppImageDescriptor::as_bytes` (packed little-endian layout). -/
def as_bytes (d : AppImageDescriptor) : List Nat :=
  u32ToBytes d.descriptor_version ++ u32ToBytes d.app_slot_number ++
    u32ToBytes d.app_version ++ u32ToBytes d.security_version ++
    u32ToBytes d.flags ++ u32ToBytes d.stored_address ++
    u32ToBytes d.image_size_bytes ++ u32ToBytes d.stored_crc_address ++
    u32ToBytes d.execution_copy_size_bytes ++ u32ToBytes d.execution_address ++
    u32ToBytes d.descriptor_crc

/-- `AppImageDescriptor::compute_crc`: CRC over all bytes except the trailing
4-byte `descriptor_crc` field. -/
def compute_crc (d : AppImageDescriptor) : Nat :=
  crc32_cksum (d.as_bytes.take (APP_IMAGE_DESCRIPTOR_SIZE - 4))

/-- `AppImageDescriptor::is_crc_valid`. -/
def is_crc_valid (d : AppImageDescriptor) : Bool :=
  d.descriptor_crc == d.compute_crc

/-- `AppImageDescriptor::from_address`. -/
def from_address (m : Mem) (address : Nat) :
    Except ParseError AppImageDescriptor :=
  let unvalidated := read m address
  if !unvalidated.is_crc_valid then
    .error (.InvalidAppCrc address unvalidated.descriptor_crc
      unvalidated.compute_crc)
  else
    .ok unvalidated

/-- `AppImageDescriptor::from_region`: pure byte arithmetic, no bounds check. -/
def from_region (m : Mem) (app_descriptors_address_start app_slot : Nat) :
    Except ParseError AppImageDescriptor :=
  from_address m (app_descriptors_address_start +
    app_slot * APP_IMAGE_DESCRIPTOR_SIZE)

/-- `AppImageDescriptor::new_execute_in_place_image`. -/
def new_execute_in_place_image (slot app_version security_version flags
    stored_address image_size_bytes stored_crc_address : Nat) :
    AppImageDescriptor :=
  let d : AppImageDescriptor :=
    { descriptor_version := DESCRIPTOR_VERSION
      app_slot_number := slot
      app_version := app_version
      security_version := security_version
      flags := flags
      stored_address := stored_address
      image_size_bytes := image_size_bytes
      stored_crc_address := stored_crc_address
      execution_address := stored_address
      execution_copy_size_bytes := 0
      descriptor_crc := 0 }
  { d with descriptor_crc := d.compute_crc }

/-- `AppImageDescriptor::new_ram_image` (forces the copy flag on). -/
def new_ram_image (slot app_version security_version flags flash_address
    image_size_bytes ram_address stored_crc_address : Nat) :
    AppImageDescriptor :=
  let d : AppImageDescriptor :=
    { descriptor_version := DESCRIPTOR_VERSION
      app_slot_number := slot
      app_version := app_version
      security_version := security_version
      flags := flags ||| APP_IMAGE_FLAG_COPY_TO_EXECUTION_ADDRESS
      stored_address := flash_address
      image_size_bytes := image_size_bytes
      stored_crc_address := stored_crc_address
      execution_address := ram_address
      execution_copy_size_bytes := image_size_bytes
      descriptor_crc := 0 }
  { d with descriptor_crc := d.compute_crc }

end AppImageDescriptor

/-- Manager struct (`BootableRegionDescriptors`). -/
structure BootableRegionDescriptors where
  base_address : Nat
  header : BootableRegionDescriptorHeader
deriving DecidableEq, Repr

namespace BootableRegionDescriptors

/-- The slot-validation loop `for i in 0..num_app_slots` of
`BootableRegionDescriptors::from_address`: validate `remaining` slots
starting at slot index `i`, short-circuiting on the first error. -/
def validateSlotsFrom (m : Mem) (base : Nat) : Nat → Nat → Except ParseError Unit
  | _, 0 => .ok ()
  | i, remaining + 1 =>
    match AppImageDescriptor.from_region m base i with
    | .error e => .error e
    | .ok _ => validateSlotsFrom m base (i + 1) remaining

/-- `BootableRegionDescriptors::from_address`. -/
def from_address (m : Mem) (address : Nat) :
    Except ParseError BootableRegionDescriptors :=
  match BootableRegionDescriptorHeader.from_address m address with
  | .error e => .error e
  | .ok header =>
    match validateSlotsFrom m header.app_descriptor_base_address 0
        header.num_app_slots with
    | .error e => .error e
    | .ok _ => .ok { base_address := address, header := header }

/-- `BootableRegionDescriptors::get_active_slot`; the `unwrap` is modelled by
`Option`: `none` is the panic case. -/
def get_active_slot (d : BootableRegionDescriptors) (m : Mem) :
    Option AppImageDescriptor :=
  (AppImageDescriptor.from_region m d.header.app_descriptor_base_address
    d.header.active_app_slot).toOption

/-- `BootableRegionDescriptors::get_app_at_slot`. -/
def get_app_at_slot (d : BootableRegionDescriptors) (m : Mem) (app_slot : Nat) :
    Except ParseError AppImageDescriptor :=
  if d.header.num_app_slots ≤ app_slot then
    .error .InvalidAppSlot
  else
    AppImageDescriptor.from_region m d.header.app_descriptor_base_address
      app_slot

end BootableRegionDescriptors

/-! ### Basic arithmetic and CRC range lemmas -/

/-- The value a little-endian u32 read recovers from the serialized bytes of `x`. -/
def rawU32 (x : Nat) : Nat :=
  x % 256 % 256 + 256 * (x / 256 % 256 % 256) + 65536 * (x / 65536 % 256 % 256) +
    16777216 * (x / 16777216 % 256 % 256)

lemma rawU32_eq (x : Nat) : rawU32 x = x % 2 ^ 32 := by
  unfold rawU32; omega

lemma crcShift_lt (c : Nat) : crcShift c < 2 ^ 32 := by
  unfold crcShift
  split <;> exact Nat.mod_lt _ (by norm_num)

lemma crcFeedByte_lt (c b : Nat) : crcFeedByte c b < 2 ^ 32 := crcShift_lt _

lemma crc_foldl_lt (bs : List Nat) (c : Nat) (hc : c < 2 ^ 32) :
    bs.foldl crcFeedByte c < 2 ^ 32 := by
  induction bs generalizing c with
  | nil => exact hc
  | cons b bs ih =>
    rw [List.foldl_cons]
    exact ih _ (crcFeedByte_lt _ _)

lemma xor_lt_two_pow_32 {x y : Nat} (hx : x < 2 ^ 32) (hy : y < 2 ^ 32) :
    x ^^^ y < 2 ^ 32 :=
  Nat.bitwise_lt hx hy

lemma crc32_cksum_lt (bs : List Nat) : crc32_cksum bs < 2 ^ 32 :=
  xor_lt_two_pow_32 (crc_foldl_lt bs 0 (by norm_num)) (by norm_num)

/-! ### Region header lemmas -/

namespace BootableRegionDescriptorHeader

/-- The first 28 bytes of the serialized header: every field except `header_crc`. -/
def bodyBytes (h : BootableRegionDescriptorHeader) : List Nat :=
  u32ToBytes h.signature ++ u32ToBytes h.descriptor_version ++
    u32ToBytes h.descriptor_header_size_bytes ++
    u32ToBytes h.app_descriptor_size_bytes ++
    u32ToBytes h.app_descriptor_base_address ++
    u32ToBytes h.num_app_slots ++ u32ToBytes h.active_app_slot

lemma compute_crc_eq (h : BootableRegionDescriptorHeader) :
    h.compute_crc = crc32_cksum h.bodyBytes :=
  congrArg crc32_cksum (show (as_bytes h).take 28 = bodyBytes h from rfl)

lemma compute_crc_set_crc (h : BootableRegionDescriptorHeader) (c : Nat) :
    compute_crc { h with header_crc := c } = compute_crc h := rfl

lemma compute_crc_lt (h : BootableRegionDescriptorHeader) :
    h.compute_crc < 2 ^ 32 := by
  rw [compute_crc_eq]; exact crc32_cksum_lt _

/-- Reading back the serialized header recovers every field mod `2^32`. -/
lemma read_as_bytes (h : BootableRegionDescriptorHeader) :
    read (memOfBytes h.as_bytes) 0 =
      { signature := h.signature % 2 ^ 32
        descriptor_version := h.descriptor_version % 2 ^ 32
        descriptor_header_size_bytes := h.descriptor_header_size_bytes % 2 ^ 32
        app_descriptor_size_bytes := h.app_descriptor_size_bytes % 2 ^ 32
        app_descriptor_base_address := h.app_descriptor_base_address % 2 ^ 32
        num_app_slots := h.num_app_slots % 2 ^ 32
        active_app_slot := h.active_app_slot % 2 ^ 32
        header_crc := h.header_crc % 2 ^ 32 } := by
  have e : read (memOfBytes h.as_bytes) 0 =
      ⟨rawU32 h.signature, rawU32 h.descriptor_version,
       rawU32 h.descriptor_header_size_bytes, rawU32 h.app_descriptor_size_bytes,
       rawU32 h.app_descriptor_base_address, rawU32 h.num_app_slots,
       rawU32 h.active_app_slot, rawU32 h.header_crc⟩ := rfl
  rw [e]
  simp only [rawU32_eq]

/-- Reading back the serialized header of an in-range header is the identity. -/
lemma read_as_bytes_of_lt (h : BootableRegionDescriptorHeader)
    (h1 : h.signature < 2 ^ 32) (h2 : h.descriptor_version < 2 ^ 32)
    (h3 : h.descriptor_header_size_bytes < 2 ^ 32)
    (h4 : h.app_descriptor_size_bytes < 2 ^ 32)
    (h5 : h.app_descriptor_base_address < 2 ^ 32)
    (h6 : h.num_app_slots < 2 ^ 32) (h7 : h.active_app_slot < 2 ^ 32)
    (h8 : h.header_crc < 2 ^ 32) :
    read (memOfBytes h.as_bytes) 0 = h := by
  rw [read_as_bytes]
  cases h
  simp_all [Nat.mod_eq_of_lt]

lemma new_signature (n a addr : Nat) :
    (new n a addr).signature = BOOT_REGION_DESCRIPTOR_SIGNATURE := rfl

lemma new_descriptor_version (n a addr : Nat) :
    (new n a addr).descriptor_version = DESCRIPTOR_VERSION := rfl

lemma new_descriptor_header_size_bytes (n a addr : Nat) :
    (new n a addr).descriptor_header_size_bytes = BOOT_REGION_DESCRIPTOR_SIZE := rfl

lemma new_app_descriptor_size_bytes (n a addr : Nat) :
    (new n a addr).app_descriptor_size_bytes = APP_IMAGE_DESCRIPTOR_SIZE := rfl

lemma new_app_descriptor_base_address (n a addr : Nat) :
    (new n a addr).app_descriptor_base_address = addr := rfl

lemma new_num_app_slots (n a addr : Nat) : (new n a addr).num_app_slots = n := rfl

lemma new_active_app_slot (n a addr : Nat) : (new n a addr).active_app_slot = a := rfl

lemma new_header_crc (n a addr : Nat) :
    (new n a addr).header_crc = compute_crc (new n a addr) := by
  rw [compute_crc_eq]
  exact congrArg crc32_cksum rfl

lemma new_is_crc_valid (n a addr : Nat) : (new n a addr).is_crc_valid = true := by
  simp [is_crc_valid, new_header_crc]

end BootableRegionDescriptorHeader

/-! ### App image descriptor lemmas -/

namespace AppImageDescriptor

/-- The first 40 bytes of the serialized descriptor: every field except
`descriptor_crc`. -/
def bodyBytes (d : AppImageDescriptor) : List Nat :=
  u32ToBytes d.descriptor_version ++ u32ToBytes d.app_slot_number ++
    u32ToBytes d.app_version ++ u32ToBytes d.security_version ++
    u32ToBytes d.flags ++ u32ToBytes d.stored_address ++
    u32ToBytes d.image_size_bytes ++ u32ToBytes d.stored_crc_address ++
    u32ToBytes d.execution_copy_size_bytes ++ u32ToBytes d.execution_address

lemma app_compute_crc_eq (d : AppImageDescriptor) :
    d.compute_crc = crc32_cksum d.bodyBytes :=
  congrArg crc32_cksum (show (as_bytes d).take 40 = bodyBytes d from rfl)

lemma app_compute_crc_set_crc (d : AppImageDescriptor) (c : Nat) :
    compute_crc { d with descriptor_crc := c } = compute_crc d := rfl

lemma app_compute_crc_lt (d : AppImageDescriptor) : d.compute_crc < 2 ^ 32 := by
  rw [app_compute_crc_eq]; exact crc32_cksum_lt _

set_option maxHeartbeats 1600000 in
/-- Reading back the serialized descriptor recovers every field mod `2^32`. -/
lemma app_read_as_bytes (d : AppImageDescriptor) :
    read (memOfBytes d.as_bytes) 0 =
      { descriptor_version := d.descriptor_version % 2 ^ 32
        app_slot_number := d.app_slot_number % 2 ^ 32
        app_version := d.app_version % 2 ^ 32
        security_version := d.security_version % 2 ^ 32
        flags := d.flags % 2 ^ 32
        stored_address := d.stored_address % 2 ^ 32
        image_size_bytes := d.image_size_bytes % 2 ^ 32
        stored_crc_address := d.stored_crc_address % 2 ^ 32
        execution_copy_size_bytes := d.execution_copy_size_bytes % 2 ^ 32
        execution_address := d.execution_address % 2 ^ 32
        descriptor_crc := d.descriptor_crc % 2 ^ 32 } := by
  have e : read (memOfBytes d.as_bytes) 0 =
      ⟨rawU32 d.descriptor_version, rawU32 d.app_slot_number,
       rawU32 d.app_version, rawU32 d.security_version, rawU32 d.flags,
       rawU32 d.stored_address, rawU32 d.image_size_bytes,
       rawU32 d.stored_crc_address, rawU32 d.execution_copy_size_bytes,
       rawU32 d.execution_address, rawU32 d.descriptor_crc⟩ := rfl
  rw [e]
  simp only [rawU32_eq]

lemma new_xip_fields (slot av sv fl sa sz ca : Nat) :
    (new_execute_in_place_image slot av sv fl sa sz ca).descriptor_version =
        DESCRIPTOR_VERSION ∧
      (new_execute_in_place_image slot av sv fl sa sz ca).app_slot_number = slot ∧
      (new_execute_in_place_image slot av sv fl sa sz ca).app_version = av ∧
      (new_execute_in_place_image slot av sv fl sa sz ca).security_version = sv ∧
      (new_execute_in_place_image slot av sv fl sa sz ca).flags = fl ∧
      (new_execute_in_place_image slot av sv fl sa sz ca).stored_address = sa ∧
      (new_execute_in_place_image slot av sv fl sa sz ca).image_size_bytes = sz ∧
      (new_execute_in_place_image slot av sv fl sa sz ca).stored_crc_address = ca ∧
      (new_execute_in_place_image slot av sv fl sa sz ca).execution_copy_size_bytes
        = 0 ∧
      (new_execute_in_place_image slot av sv fl sa sz ca).execution_address = sa :=
  ⟨rfl, rfl, rfl, rfl, rfl, rfl, rfl, rfl, rfl, rfl⟩

lemma new_ram_fields (slot av sv fl fa sz ra ca : Nat) :
    (new_ram_image slot av sv fl fa sz ra ca).descriptor_version =
        DESCRIPTOR_VERSION ∧
      (new_ram_image slot av sv fl fa sz ra ca).app_slot_number = slot ∧
      (new_ram_image slot av sv fl fa sz ra ca).app_version = av ∧
      (new_ram_image slot av sv fl fa sz ra ca).security_version = sv ∧
      (new_ram_image slot av sv fl fa sz ra ca).flags =
        (fl ||| APP_IMAGE_FLAG_COPY_TO_EXECUTION_ADDRESS) ∧
      (new_ram_image slot av sv fl fa sz ra ca).stored_address = fa ∧
      (new_ram_image slot av sv fl fa sz ra ca).image_size_bytes = sz ∧
      (new_ram_image slot av sv fl fa sz ra ca).stored_crc_address = ca ∧
      (new_ram_image slot av sv fl fa sz ra ca).execution_copy_size_bytes = sz ∧
      (new_ram_image slot av sv fl fa sz ra ca).execution_address = ra :=
  ⟨rfl, rfl, rfl, rfl, rfl, rfl, rfl, rfl, rfl, rfl⟩

lemma new_xip_descriptor_crc (slot av sv fl sa sz ca : Nat) :
    (new_execute_in_place_image slot av sv fl sa sz ca).descriptor_crc =
      compute_crc (new_execute_in_place_image slot av sv fl sa sz ca) := by
  rw [app_compute_crc_eq]
  exact congrArg crc32_cksum rfl

lemma new_ram_descriptor_crc (slot av sv fl fa sz ra ca : Nat) :
    (new_ram_image slot av sv fl fa sz ra ca).descriptor_crc =
      compute_crc (new_ram_image slot av sv fl fa sz ra ca) := by
  rw [app_compute_crc_eq]
  exact congrArg crc32_cksum rfl

lemma new_xip_is_crc_valid (slot av sv fl sa sz ca : Nat) :
    (new_execute_in_place_image slot av sv fl sa sz ca).is_crc_valid = true := by
  simp [is_crc_valid, new_xip_descriptor_crc]

lemma new_ram_is_crc_valid (slot av sv fl fa sz ra ca : Nat) :
    (new_ram_image slot av sv fl fa sz ra ca).is_crc_valid = true := by
  simp [is_crc_valid, new_ram_descriptor_crc]

/-- `from_address` on a descriptor whose stored CRC checks out. -/
lemma from_address_of_valid {m : Mem} {a : Nat}
    (hv : (read m a).is_crc_valid = true) :
    from_address m a = .ok (read m a) := by
  simp [from_address, hv]

/-- `from_address` on a descriptor whose stored CRC does not check out. -/
lemma from_address_of_invalid {m : Mem} {a : Nat}
    (hv : (read m a).is_crc_valid = false) :
    from_address m a =
      .error (.InvalidAppCrc a (read m a).descriptor_crc (read m a).compute_crc)
    := by
  simp [from_address, hv]

end AppImageDescriptor

/-! ### Header parse case lemmas -/

namespace BootableRegionDescriptorHeader

lemma from_address_of_bad_signature {m : Mem} {addr : Nat}
    (h1 : (read m addr).signature ≠ BOOT_REGION_DESCRIPTOR_SIGNATURE) :
    from_address m addr = .error .InvalidSignature := by
  simp [from_address, h1]

lemma from_address_of_bad_crc {m : Mem} {addr : Nat}
    (h1 : (read m addr).signature = BOOT_REGION_DESCRIPTOR_SIGNATURE)
    (h2 : (read m addr).is_crc_valid = false) :
    from_address m addr =
      .error (.InvalidHeaderCrc (read m addr).header_crc (read m addr).compute_crc)
    := by
  simp [from_address, h1, h2]

lemma from_address_of_zero_slots {m : Mem} {addr : Nat}
    (h1 : (read m addr).signature = BOOT_REGION_DESCRIPTOR_SIGNATURE)
    (h2 : (read m addr).is_crc_valid = true)
    (h3 : (read m addr).num_app_slots = 0) :
    from_address m addr = .error .InvalidSlotCount := by
  simp [from_address, h1, h2, h3]

lemma from_address_of_bad_active_slot {m : Mem} {addr : Nat}
    (h1 : (read m addr).signature = BOOT_REGION_DESCRIPTOR_SIGNATURE)
    (h2 : (read m addr).is_crc_valid = true)
    (h3 : 1 ≤ (read m addr).num_app_slots)
    (h4 : (read m addr).num_app_slots ≤ (read m addr).active_app_slot) :
    from_address m addr = .error .InvalidAppSlot := by
  simp [from_address, h1, h2,
    show ¬((read m addr).num_app_slots < 1) from by omega, h4]

lemma from_address_of_checks {m : Mem} {addr : Nat}
    (h1 : (read m addr).signature = BOOT_REGION_DESCRIPTOR_SIGNATURE)
    (h2 : (read m addr).is_crc_valid = true)
    (h3 : 1 ≤ (read m addr).num_app_slots)
    (h4 : (read m addr).active_app_slot < (read m addr).num_app_slots) :
    from_address m addr = .ok (read m addr) := by
  simp [from_address, h1, h2,
    show ¬((read m addr).num_app_slots < 1) from by omega,
    show ¬((read m addr).num_app_slots ≤ (read m addr).active_app_slot) from by
      omega]

lemma from_address_ok_inv {m : Mem} {addr : Nat}
    {h : BootableRegionDescriptorHeader} (hok : from_address m addr = .ok h) :
    h = read m addr ∧
      (read m addr).signature = BOOT_REGION_DESCRIPTOR_SIGNATURE ∧
      (read m addr).is_crc_valid = true ∧
      1 ≤ (read m addr).num_app_slots ∧
      (read m addr).active_app_slot < (read m addr).num_app_slots := by
  by_cases h1 : (read m addr).signature = BOOT_REGION_DESCRIPTOR_SIGNATURE
  · by_cases h2 : (read m addr).is_crc_valid = true
    · by_cases h3 : (read m addr).num_app_slots = 0
      · rw [from_address_of_zero_slots h1 h2 h3] at hok
        exact Except.noConfusion hok
      · by_cases h4 : (read m addr).active_app_slot < (read m addr).num_app_slots
        · rw [from_address_of_checks h1 h2 (by omega) h4] at hok
          injection hok with hh
          exact ⟨hh.symm, h1, h2, by omega, h4⟩
        · rw [from_address_of_bad_active_slot h1 h2 (by omega) (by omega)] at hok
          exact Except.noConfusion hok
    · have h2f : (read m addr).is_crc_valid = false := by simpa using h2
      rw [from_address_of_bad_crc h1 h2f] at hok
      exact Except.noConfusion hok
  · rw [from_address_of_bad_signature h1] at hok
    exact Except.noConfusion hok

end BootableRegionDescriptorHeader

/-! ### Manager construction lemmas -/

namespace BootableRegionDescriptors

/-- The descriptor record stored at slot `i` of the region rooted at `base`. -/
def appAt (m : Mem) (base i : Nat) : AppImageDescriptor :=
  AppImageDescriptor.read m (base + i * APP_IMAGE_DESCRIPTOR_SIZE)

/-- The `InvalidAppCrc` error reported for slot `i` of the region at `base`. -/
def appErrAt (m : Mem) (base i : Nat) : ParseError :=
  .InvalidAppCrc (base + i * APP_IMAGE_DESCRIPTOR_SIZE)
    (appAt m base i).descriptor_crc (appAt m base i).compute_crc

lemma from_region_of_valid {m : Mem} {base i : Nat}
    (hv : (appAt m base i).is_crc_valid = true) :
    AppImageDescriptor.from_region m base i = .ok (appAt m base i) :=
  AppImageDescriptor.from_address_of_valid hv

lemma from_region_of_invalid {m : Mem} {base i : Nat}
    (hv : (appAt m base i).is_crc_valid = false) :
    AppImageDescriptor.from_region m base i = .error (appErrAt m base i) :=
  AppImageDescriptor.from_address_of_invalid hv

lemma validateSlotsFrom_succ (m : Mem) (base i k : Nat) :
    validateSlotsFrom m base i (k + 1) =
      match AppImageDescriptor.from_region m base i with
      | .error e => .error e
      | .ok _ => validateSlotsFrom m base (i + 1) k := rfl

lemma validateSlotsFrom_ok_of (m : Mem) (base : Nat) :
    ∀ k i, (∀ j, j < k → (appAt m base (i + j)).is_crc_valid = true) →
      validateSlotsFrom m base i k = .ok () := by
  intro k
  induction k with
  | zero => intro i _; rfl
  | succ k ih =>
    intro i hv
    have h0 : (appAt m base i).is_crc_valid = true := by
      have := hv 0 (Nat.succ_pos _)
      simpa using this
    rw [validateSlotsFrom_succ, from_region_of_valid h0]
    exact ih (i + 1) fun j hj => by
      have := hv (j + 1) (by omega)
      rwa [show i + (j + 1) = i + 1 + j from by omega] at this

lemma validateSlotsFrom_err_of (m : Mem) (base : Nat) :
    ∀ k i j, j < k →
      (∀ j2, j2 < j → (appAt m base (i + j2)).is_crc_valid = true) →
      (appAt m base (i + j)).is_crc_valid = false →
      validateSlotsFrom m base i k = .error (appErrAt m base (i + j)) := by
  intro k
  induction k with
  | zero => intro i j hj; omega
  | succ k ih =>
    intro i j hj hpre hbad
    cases j with
    | zero =>
      have h0 : (appAt m base i).is_crc_valid = false := by simpa using hbad
      rw [validateSlotsFrom_succ, from_region_of_invalid h0]
      simp
    | succ j =>
      have h0 : (appAt m base i).is_crc_valid = true := by
        have := hpre 0 (Nat.succ_pos _)
        simpa using this
      rw [validateSlotsFrom_succ, from_region_of_valid h0]
      have := ih (i + 1) j (by omega)
        (fun j2 hj2 => by
          have := hpre (j2 + 1) (by omega)
          rwa [show i + (j2 + 1) = i + 1 + j2 from by omega] at this)
        (by rwa [show i + (j + 1) = i + 1 + j from by omega] at hbad)
      rwa [show i + 1 + j = i + (j + 1) from by omega] at this

lemma validateSlotsFrom_ok_inv (m : Mem) (base : Nat) :
    ∀ k i, validateSlotsFrom m base i k = .ok () →
      ∀ j, j < k → (appAt m base (i + j)).is_crc_valid = true := by
  intro k
  induction k with
  | zero => intro i _ j hj; omega
  | succ k ih =>
    intro i hok j hj
    rw [validateSlotsFrom_succ] at hok
    cases hv : (appAt m base i).is_crc_valid with
    | false =>
      rw [from_region_of_invalid hv] at hok
      exact Except.noConfusion hok
    | true =>
      rw [from_region_of_valid hv] at hok
      cases j with
      | zero => simpa using hv
      | succ j =>
        have := ih (i + 1) hok j (by omega)
        rwa [show i + 1 + j = i + (j + 1) from by omega] at this

lemma from_address_ok_of {m : Mem} {addr : Nat}
    {h : BootableRegionDescriptorHeader}
    (hh : BootableRegionDescriptorHeader.from_address m addr = .ok h)
    (hv : validateSlotsFrom m h.app_descriptor_base_address 0 h.num_app_slots =
      .ok ()) :
    from_address m addr = .ok { base_address := addr, header := h } := by
  unfold from_address
  rw [hh]
  dsimp only
  rw [hv]

lemma from_address_err_of_validate {m : Mem} {addr : Nat}
    {h : BootableRegionDescriptorHeader} {e : ParseError}
    (hh : BootableRegionDescriptorHeader.from_address m addr = .ok h)
    (hv : validateSlotsFrom m h.app_descriptor_base_address 0 h.num_app_slots =
      .error e) :
    from_address m addr = .error e := by
  unfold from_address
  rw [hh]
  dsimp only
  rw [hv]

lemma mgr_from_address_ok_inv {m : Mem} {addr : Nat} {d : BootableRegionDescriptors}
    (hok : from_address m addr = .ok d) :
    BootableRegionDescriptorHeader.from_address m addr = .ok d.header ∧
      d.base_address = addr ∧
      validateSlotsFrom m d.header.app_descriptor_base_address 0
        d.header.num_app_slots = .ok () := by
  unfold from_address at hok
  cases hh : BootableRegionDescriptorHeader.from_address m addr with
  | error e =>
    rw [hh] at hok
    exact Except.noConfusion hok
  | ok h =>
    rw [hh] at hok
    dsimp only at hok
    cases hv : validateSlotsFrom m h.app_descriptor_base_address 0
        h.num_app_slots with
    | error e =>
      rw [hv] at hok
      exact Except.noConfusion hok
    | ok u =>
      cases u
      rw [hv] at hok
      have hd : ({ base_address := addr, header := h } :
          BootableRegionDescriptors) = d := by
        simpa using hok
      subst hd
      exact ⟨rfl, rfl, hv⟩

end BootableRegionDescriptors

/-! ### Claims -/

/-- C1: Region Header parsing validates in a fixed order and returns the first
violated invariant, short-circuiting: a signature mismatch (regardless of all
remaining content) yields `InvalidSignature`; otherwise a stored/computed
checksum mismatch yields `InvalidHeaderCrc` carrying found and expected;
otherwise a zero `num_app_slots` yields `InvalidSlotCount`; otherwise an
`active_app_slot` at or beyond `num_app_slots` yields `InvalidAppSlot`;
otherwise parsing succeeds with the header read from the buffer. -/
theorem claim_C1 (m : Mem) (addr : Nat) :
    ((BootableRegionDescriptorHeader.read m addr).signature ≠
        BOOT_REGION_DESCRIPTOR_SIGNATURE →
      BootableRegionDescriptorHeader.from_address m addr =
        .error .InvalidSignature) ∧
    ((BootableRegionDescriptorHeader.read m addr).signature =
        BOOT_REGION_DESCRIPTOR_SIGNATURE →
      (BootableRegionDescriptorHeader.read m addr).is_crc_valid = false →
      BootableRegionDescriptorHeader.from_address m addr =
        .error (.InvalidHeaderCrc
          (BootableRegionDescriptorHeader.read m addr).header_crc
          (BootableRegionDescriptorHeader.read m addr).compute_crc)) ∧
    ((BootableRegionDescriptorHeader.read m addr).signature =
        BOOT_REGION_DESCRIPTOR_SIGNATURE →
      (BootableRegionDescriptorHeader.read m addr).is_crc_valid = true →
      (BootableRegionDescriptorHeader.read m addr).num_app_slots = 0 →
      BootableRegionDescriptorHeader.from_address m addr =
        .error .InvalidSlotCount) ∧
    ((BootableRegionDescriptorHeader.read m addr).signature =
        BOOT_REGION_DESCRIPTOR_SIGNATURE →
      (BootableRegionDescriptorHeader.read m addr).is_crc_valid = true →
      1 ≤ (BootableRegionDescriptorHeader.read m addr).num_app_slots →
      (BootableRegionDescriptorHeader.read m addr).num_app_slots ≤
        (BootableRegionDescriptorHeader.read m addr).active_app_slot →
      BootableRegionDescriptorHeader.from_address m addr =
        .error .InvalidAppSlot) ∧
    ((BootableRegionDescriptorHeader.read m addr).signature =
        BOOT_REGION_DESCRIPTOR_SIGNATURE →
      (BootableRegionDescriptorHeader.read m addr).is_crc_valid = true →
      1 ≤ (BootableRegionDescriptorHeader.read m addr).num_app_slots →
      (BootableRegionDescriptorHeader.read m addr).active_app_slot <
        (BootableRegionDescriptorHeader.read m addr).num_app_slots →
      BootableRegionDescriptorHeader.from_address m addr =
        .ok (BootableRegionDescriptorHeader.read m addr)) :=
  ⟨fun h1 => BootableRegionDescriptorHeader.from_address_of_bad_signature h1,
   fun h1 h2 => BootableRegionDescriptorHeader.from_address_of_bad_crc h1 h2,
   fun h1 h2 h3 => BootableRegionDescriptorHeader.from_address_of_zero_slots
     h1 h2 h3,
   fun h1 h2 h3 h4 =>
     BootableRegionDescriptorHeader.from_address_of_bad_active_slot h1 h2 h3 h4,
   fun h1 h2 h3 h4 =>
     BootableRegionDescriptorHeader.from_address_of_checks h1 h2 h3 h4⟩

set_option maxRecDepth 100000 in
set_option maxHeartbeats 4000000 in
/-- Witness for C1: each of the five branches exercised on a concrete buffer. -/
theorem claim_C1_witness :
    (BootableRegionDescriptorHeader.from_address (memOfBytes []) 0 =
      .error .InvalidSignature) ∧
    (BootableRegionDescriptorHeader.from_address
        (memOfBytes (u32ToBytes BOOT_REGION_DESCRIPTOR_SIGNATURE)) 0 =
      .error (.InvalidHeaderCrc
        (BootableRegionDescriptorHeader.read
          (memOfBytes (u32ToBytes BOOT_REGION_DESCRIPTOR_SIGNATURE)) 0).header_crc
        (BootableRegionDescriptorHeader.read
          (memOfBytes (u32ToBytes BOOT_REGION_DESCRIPTOR_SIGNATURE)) 0).compute_crc))
      ∧
    (BootableRegionDescriptorHeader.from_address
        (memOfBytes (BootableRegionDescriptorHeader.new 0 0 0).as_bytes) 0 =
      .error .InvalidSlotCount) ∧
    (BootableRegionDescriptorHeader.from_address
        (memOfBytes (BootableRegionDescriptorHeader.new 1 1 0).as_bytes) 0 =
      .error .InvalidAppSlot) ∧
    (BootableRegionDescriptorHeader.from_address
        (memOfBytes (BootableRegionDescriptorHeader.new 1 0 32).as_bytes) 0 =
      .ok (BootableRegionDescriptorHeader.read
        (memOfBytes (BootableRegionDescriptorHeader.new 1 0 32).as_bytes) 0)) :=
  ⟨(claim_C1 (memOfBytes []) 0).1 (by decide),
   (claim_C1 (memOfBytes (u32ToBytes BOOT_REGION_DESCRIPTOR_SIGNATURE)) 0).2.1
     (by decide) (by decide),
   (claim_C1 (memOfBytes (BootableRegionDescriptorHeader.new 0 0 0).as_bytes)
       0).2.2.1 (by decide) (by decide) (by decide),
   (claim_C1 (memOfBytes (BootableRegionDescriptorHeader.new 1 1 0).as_bytes)
       0).2.2.2.1 (by decide) (by decide) (by decide) (by decide),
   (claim_C1 (memOfBytes (BootableRegionDescriptorHeader.new 1 0 32).as_bytes)
       0).2.2.2.2 (by decide) (by decide) (by decide) (by decide)⟩

/-- C4: header build/parse round-trip.  For every slot count `n ≥ 1` and
active index `a < n` (all arguments u32-ranged as in the source), the header
built by `new` has a valid checksum, and Region Header parsing applied to its
serialized bytes succeeds and returns the built header field-for-field. -/
theorem claim_C4 (n a addr : Nat) (h1 : 1 ≤ n) (h2 : a < n) (h3 : n < 2 ^ 32)
    (h4 : addr < 2 ^ 32) :
    (BootableRegionDescriptorHeader.new n a addr).is_crc_valid = true ∧
    BootableRegionDescriptorHeader.from_address
        (memOfBytes (BootableRegionDescriptorHeader.new n a addr).as_bytes) 0 =
      .ok (BootableRegionDescriptorHeader.new n a addr) := by
  refine ⟨BootableRegionDescriptorHeader.new_is_crc_valid n a addr, ?_⟩
  have hread : BootableRegionDescriptorHeader.read
      (memOfBytes (BootableRegionDescriptorHeader.new n a addr).as_bytes) 0 =
      BootableRegionDescriptorHeader.new n a addr := by
    refine BootableRegionDescriptorHeader.read_as_bytes_of_lt _ ?_ ?_ ?_ ?_ ?_ ?_
      ?_ ?_
    · rw [BootableRegionDescriptorHeader.new_signature]; decide
    · rw [BootableRegionDescriptorHeader.new_descriptor_version]; decide
    · rw [BootableRegionDescriptorHeader.new_descriptor_header_size_bytes]; decide
    · rw [BootableRegionDescriptorHeader.new_app_descriptor_size_bytes]; decide
    · rw [BootableRegionDescriptorHeader.new_app_descriptor_base_address]
      exact h4
    · rw [BootableRegionDescriptorHeader.new_num_app_slots]; exact h3
    · rw [BootableRegionDescriptorHeader.new_active_app_slot]; omega
    · rw [BootableRegionDescriptorHeader.new_header_crc]
      exact BootableRegionDescriptorHeader.compute_crc_lt _
  rw [BootableRegionDescriptorHeader.from_address_of_checks
    (by rw [hread]; exact BootableRegionDescriptorHeader.new_signature n a addr)
    (by rw [hread]; exact BootableRegionDescriptorHeader.new_is_crc_valid n a addr)
    (by rw [hread, BootableRegionDescriptorHeader.new_num_app_slots]; exact h1)
    (by rw [hread, BootableRegionDescriptorHeader.new_num_app_slots,
      BootableRegionDescriptorHeader.new_active_app_slot]; exact h2), hread]

set_option maxRecDepth 100000 in
set_option maxHeartbeats 4000000 in
/-- Witness for C4 at `n = 3`, `a = 1`, `addr = 4096`. -/
theorem claim_C4_witness :
    (BootableRegionDescriptorHeader.new 3 1 4096).is_crc_valid = true ∧
    BootableRegionDescriptorHeader.from_address
        (memOfBytes (BootableRegionDescriptorHeader.new 3 1 4096).as_bytes) 0 =
      .ok (BootableRegionDescriptorHeader.new 3 1 4096) :=
  claim_C4 3 1 4096 (by decide) (by decide) (by decide) (by decide)

/-- C5: `new_ram_image` forces the copy-to-execution-address bit (bit 0) on,
preserving the other caller flag bits by bitwise or, and sets
`execution_address` to the RAM address, `execution_copy_size_bytes` to the
image size, and `stored_address` to the flash address. -/
theorem claim_C5 (slot av sv fl fa sz ra ca : Nat) :
    (AppImageDescriptor.new_ram_image slot av sv fl fa sz ra ca).flags =
        (fl ||| APP_IMAGE_FLAG_COPY_TO_EXECUTION_ADDRESS) ∧
      (AppImageDescriptor.new_ram_image slot av sv fl fa sz ra ca).flags.testBit
        0 = true ∧
      (AppImageDescriptor.new_ram_image slot av sv fl fa sz ra
        ca).execution_address = ra ∧
      (AppImageDescriptor.new_ram_image slot av sv fl fa sz ra
        ca).execution_copy_size_bytes = sz ∧
      (AppImageDescriptor.new_ram_image slot av sv fl fa sz ra
        ca).stored_address = fa := by
  refine ⟨rfl, ?_, rfl, rfl, rfl⟩
  have e : (AppImageDescriptor.new_ram_image slot av sv fl fa sz ra ca).flags =
      (fl ||| APP_IMAGE_FLAG_COPY_TO_EXECUTION_ADDRESS) := rfl
  rw [e, APP_IMAGE_FLAG_COPY_TO_EXECUTION_ADDRESS, Nat.testBit_lor]
  simp

/-- C8: every record produced by a builder satisfies the checksum invariant
(the trailing checksum field equals the CRC over all preceding fields in
declared byte order), and both compute-checksum operations ignore the value of
the record's own trailing checksum field. -/
theorem claim_C8 :
    (∀ slot av sv fl sa sz ca,
      (AppImageDescriptor.new_execute_in_place_image slot av sv fl sa sz
        ca).descriptor_crc =
        crc32_cksum (AppImageDescriptor.bodyBytes
          (AppImageDescriptor.new_execute_in_place_image slot av sv fl sa sz
            ca)) ∧
      (AppImageDescriptor.new_execute_in_place_image slot av sv fl sa sz
        ca).is_crc_valid = true) ∧
    (∀ slot av sv fl fa sz ra ca,
      (AppImageDescriptor.new_ram_image slot av sv fl fa sz ra
        ca).descriptor_crc =
        crc32_cksum (AppImageDescriptor.bodyBytes
          (AppImageDescriptor.new_ram_image slot av sv fl fa sz ra ca)) ∧
      (AppImageDescriptor.new_ram_image slot av sv fl fa sz ra
        ca).is_crc_valid = true) ∧
    (∀ n a addr,
      (BootableRegionDescriptorHeader.new n a addr).header_crc =
        crc32_cksum (BootableRegionDescriptorHeader.bodyBytes
          (BootableRegionDescriptorHeader.new n a addr)) ∧
      (BootableRegionDescriptorHeader.new n a addr).is_crc_valid = true) ∧
    (∀ (d : AppImageDescriptor) (c : Nat),
      AppImageDescriptor.compute_crc { d with descriptor_crc := c } =
        AppImageDescriptor.compute_crc d) ∧
    (∀ (h : BootableRegionDescriptorHeader) (c : Nat),
      BootableRegionDescriptorHeader.compute_crc { h with header_crc := c } =
        BootableRegionDescriptorHeader.compute_crc h) :=
  ⟨fun slot av sv fl sa sz ca =>
    ⟨(AppImageDescriptor.new_xip_descriptor_crc slot av sv fl sa sz ca).trans
        (AppImageDescriptor.app_compute_crc_eq _),
      AppImageDescriptor.new_xip_is_crc_valid slot av sv fl sa sz ca⟩,
   fun slot av sv fl fa sz ra ca =>
    ⟨(AppImageDescriptor.new_ram_descriptor_crc slot av sv fl fa sz ra ca).trans
        (AppImageDescriptor.app_compute_crc_eq _),
      AppImageDescriptor.new_ram_is_crc_valid slot av sv fl fa sz ra ca⟩,
   fun n a addr =>
    ⟨(BootableRegionDescriptorHeader.new_header_crc n a addr).trans
        (BootableRegionDescriptorHeader.compute_crc_eq _),
      BootableRegionDescriptorHeader.new_is_crc_valid n a addr⟩,
   fun d c => AppImageDescriptor.app_compute_crc_set_crc d c,
   fun h c => BootableRegionDescriptorHeader.compute_crc_set_crc h c⟩

/-- C9: the const header builder performs no validation: `new 0 a addr` is
checksum-valid yet its bytes fail parsing with `InvalidSlotCount`, and for
`a ≥ n ≥ 1`, `new n a addr` is checksum-valid yet its bytes fail parsing with
`InvalidAppSlot` — build success does not imply parse success. -/
theorem claim_C9 :
    (∀ a addr, a < 2 ^ 32 → addr < 2 ^ 32 →
      (BootableRegionDescriptorHeader.new 0 a addr).is_crc_valid = true ∧
      BootableRegionDescriptorHeader.from_address
          (memOfBytes (BootableRegionDescriptorHeader.new 0 a addr).as_bytes) 0
        = .error .InvalidSlotCount) ∧
    (∀ n a addr, 1 ≤ n → n ≤ a → a < 2 ^ 32 → addr < 2 ^ 32 →
      (BootableRegionDescriptorHeader.new n a addr).is_crc_valid = true ∧
      BootableRegionDescriptorHeader.from_address
          (memOfBytes (BootableRegionDescriptorHeader.new n a addr).as_bytes) 0
        = .error .InvalidAppSlot) := by
  have hread : ∀ n a addr, n < 2 ^ 32 → a < 2 ^ 32 → addr < 2 ^ 32 →
      BootableRegionDescriptorHeader.read
        (memOfBytes (BootableRegionDescriptorHeader.new n a addr).as_bytes) 0 =
        BootableRegionDescriptorHeader.new n a addr := by
    intro n a addr hn ha haddr
    refine BootableRegionDescriptorHeader.read_as_bytes_of_lt _ ?_ ?_ ?_ ?_ ?_ ?_
      ?_ ?_
    · rw [BootableRegionDescriptorHeader.new_signature]; decide
    · rw [BootableRegionDescriptorHeader.new_descriptor_version]; decide
    · rw [BootableRegionDescriptorHeader.new_descriptor_header_size_bytes]; decide
    · rw [BootableRegionDescriptorHeader.new_app_descriptor_size_bytes]; decide
    · rw [BootableRegionDescriptorHeader.new_app_descriptor_base_address]
      exact haddr
    · rw [BootableRegionDescriptorHeader.new_num_app_slots]; exact hn
    · rw [BootableRegionDescriptorHeader.new_active_app_slot]; exact ha
    · rw [BootableRegionDescriptorHeader.new_header_crc]
      exact BootableRegionDescriptorHeader.compute_crc_lt _
  constructor
  · intro a addr ha haddr
    have hr := hread 0 a addr (by decide) ha haddr
    refine ⟨BootableRegionDescriptorHeader.new_is_crc_valid 0 a addr, ?_⟩
    exact BootableRegionDescriptorHeader.from_address_of_zero_slots
      (by rw [hr]; exact BootableRegionDescriptorHeader.new_signature 0 a addr)
      (by rw [hr]; exact BootableRegionDescriptorHeader.new_is_crc_valid 0 a addr)
      (by rw [hr]; exact BootableRegionDescriptorHeader.new_num_app_slots 0 a addr)
  · intro n a addr hn hna ha haddr
    have hr := hread n a addr (by omega) ha haddr
    refine ⟨BootableRegionDescriptorHeader.new_is_crc_valid n a addr, ?_⟩
    refine BootableRegionDescriptorHeader.from_address_of_bad_active_slot
      (by rw [hr]; exact BootableRegionDescriptorHeader.new_signature n a addr)
      (by rw [hr]; exact BootableRegionDescriptorHeader.new_is_crc_valid n a addr)
      ?_ ?_
    · rw [hr, BootableRegionDescriptorHeader.new_num_app_slots]; exact hn
    · rw [hr, BootableRegionDescriptorHeader.new_num_app_slots,
        BootableRegionDescriptorHeader.new_active_app_slot]
      exact hna

set_option maxRecDepth 100000 in
set_option maxHeartbeats 4000000 in
/-- Witness for C9 at `new 0 5 0` and `new 2 7 0`. -/
theorem claim_C9_witness :
    ((BootableRegionDescriptorHeader.new 0 5 0).is_crc_valid = true ∧
      BootableRegionDescriptorHeader.from_address
          (memOfBytes (BootableRegionDescriptorHeader.new 0 5 0).as_bytes) 0 =
        .error .InvalidSlotCount) ∧
    ((BootableRegionDescriptorHeader.new 2 7 0).is_crc_valid = true ∧
      BootableRegionDescriptorHeader.from_address
          (memOfBytes (BootableRegionDescriptorHeader.new 2 7 0).as_bytes) 0 =
        .error .InvalidAppSlot) :=
  ⟨claim_C9.1 5 0 (by decide) (by decide),
   claim_C9.2 2 7 0 (by decide) (by decide) (by decide) (by decide)⟩

deriving instance DecidableEq for Except

/-- A concrete one-slot region: header at 0, descriptor array at 32 holding
one valid XIP descriptor. -/
def demoMem : Mem :=
  memOfBytes ((BootableRegionDescriptorHeader.new 1 0 32).as_bytes ++
    (AppImageDescriptor.new_execute_in_place_image 0 0 0 0 0 0 0).as_bytes)

/-- A concrete three-slot region: header at 0, descriptor array at 32 holding
three valid XIP descriptors. -/
def demo3Mem : Mem :=
  memOfBytes ((BootableRegionDescriptorHeader.new 3 0 32).as_bytes ++
    ((AppImageDescriptor.new_execute_in_place_image 0 0 0 0 0 0 0).as_bytes ++
      ((AppImageDescriptor.new_execute_in_place_image 1 0 0 0 0 0 0).as_bytes ++
        (AppImageDescriptor.new_execute_in_place_image 2 0 0 0 0 0 0).as_bytes)))

open BootableRegionDescriptors in
/-- C2: Manager construction is atomic over the whole slot array.  For every
region whose header parses valid with `n` slots: if slot `i < n` is the first
slot whose stored checksum does not match its computed checksum, then
`BootableRegionDescriptors::from_address` returns that slot's
`InvalidAppCrc` error (carrying its address, found, and expected values) and
no Manager value is produced; if all `n` slots are valid, construction
succeeds. -/
theorem claim_C2 (m : Mem) (addr : Nat) (h : BootableRegionDescriptorHeader)
    (hh : BootableRegionDescriptorHeader.from_address m addr = .ok h) :
    (∀ i, i < h.num_app_slots →
      (∀ j, j < i →
        (appAt m h.app_descriptor_base_address j).is_crc_valid = true) →
      (appAt m h.app_descriptor_base_address i).is_crc_valid = false →
      BootableRegionDescriptors.from_address m addr =
        .error (appErrAt m h.app_descriptor_base_address i)) ∧
    ((∀ i, i < h.num_app_slots →
        (appAt m h.app_descriptor_base_address i).is_crc_valid = true) →
      BootableRegionDescriptors.from_address m addr =
        .ok { base_address := addr, header := h }) := by
  constructor
  · intro i hi hpre hbad
    have hv := validateSlotsFrom_err_of m h.app_descriptor_base_address
      h.num_app_slots 0 i hi
      (fun j2 hj2 => by simpa using hpre j2 hj2)
      (by simpa using hbad)
    rw [Nat.zero_add] at hv
    exact from_address_err_of_validate hh hv
  · intro hall
    exact from_address_ok_of hh
      (validateSlotsFrom_ok_of m h.app_descriptor_base_address
        h.num_app_slots 0 (fun j hj => by simpa using hall j (by omega)))

set_option maxRecDepth 100000 in
set_option maxHeartbeats 4000000 in
/-- Witness for C2: a one-slot region whose only descriptor is corrupt (all
zero bytes) makes Manager construction fail with that slot's `InvalidAppCrc`;
the valid one-slot region constructs successfully. -/
theorem claim_C2_witness :
    (BootableRegionDescriptors.from_address
        (memOfBytes (BootableRegionDescriptorHeader.new 1 0 32).as_bytes) 0 =
      .error (BootableRegionDescriptors.appErrAt
        (memOfBytes (BootableRegionDescriptorHeader.new 1 0 32).as_bytes) 32 0))
      ∧
    (BootableRegionDescriptors.from_address demoMem 0 =
      .ok { base_address := 0,
            header := BootableRegionDescriptorHeader.new 1 0 32 }) :=
  ⟨((claim_C2
      (memOfBytes (BootableRegionDescriptorHeader.new 1 0 32).as_bytes) 0
      (BootableRegionDescriptorHeader.new 1 0 32) (by decide)).1 0 (by decide)
      (fun j hj => absurd hj (by omega)) (by decide)),
   ((claim_C2 demoMem 0 (BootableRegionDescriptorHeader.new 1 0 32)
      (by decide)).2 (fun i hi => by
        have h1 : i < 1 := by
          simpa [BootableRegionDescriptorHeader.new_num_app_slots] using hi
        have h0 : i = 0 := by omega
        subst h0
        decide))⟩

open BootableRegionDescriptors in
/-- C3: `get_active_slot` is infallible over memory unchanged since
construction: for every successfully constructed Manager it returns (`some`)
the descriptor stored at the header's `active_app_slot` index; the internal
unwrap's panic branch (`none`) is unreachable. -/
theorem claim_C3 (m : Mem) (addr : Nat) (d : BootableRegionDescriptors)
    (hd : BootableRegionDescriptors.from_address m addr = .ok d) :
    d.get_active_slot m =
      some (appAt m d.header.app_descriptor_base_address
        d.header.active_app_slot) := by
  obtain ⟨hh, -, hv⟩ := mgr_from_address_ok_inv hd
  obtain ⟨heq, -, -, -, h4⟩ :=
    BootableRegionDescriptorHeader.from_address_ok_inv hh
  have hactive : d.header.active_app_slot < d.header.num_app_slots := by
    rw [heq]; exact h4
  have hvalid : (appAt m d.header.app_descriptor_base_address
      d.header.active_app_slot).is_crc_valid = true := by
    have := validateSlotsFrom_ok_inv m d.header.app_descriptor_base_address
      d.header.num_app_slots 0 hv d.header.active_app_slot hactive
    simpa using this
  unfold BootableRegionDescriptors.get_active_slot
  rw [from_region_of_valid hvalid]
  rfl

set_option maxRecDepth 100000 in
set_option maxHeartbeats 4000000 in
/-- Witness for C3 on the concrete valid one-slot region. -/
theorem claim_C3_witness :
    BootableRegionDescriptors.get_active_slot
        { base_address := 0, header := BootableRegionDescriptorHeader.new 1 0 32 }
        demoMem =
      some (BootableRegionDescriptors.appAt demoMem 32 0) :=
  claim_C3 demoMem 0
    { base_address := 0, header := BootableRegionDescriptorHeader.new 1 0 32 }
    (by decide)

open BootableRegionDescriptors in
/-- C7: `get_app_at_slot` bounds behaviour over memory unchanged since
construction: every index at or beyond the header's slot count yields
`InvalidAppSlot`, and every in-range index yields `Ok` with the descriptor
stored at that slot. -/
theorem claim_C7 (m : Mem) (addr : Nat) (d : BootableRegionDescriptors)
    (hd : BootableRegionDescriptors.from_address m addr = .ok d) :
    (∀ i, d.header.num_app_slots ≤ i →
      d.get_app_at_slot m i = .error .InvalidAppSlot) ∧
    (∀ i, i < d.header.num_app_slots →
      d.get_app_at_slot m i =
        .ok (appAt m d.header.app_descriptor_base_address i)) := by
  obtain ⟨-, -, hv⟩ := mgr_from_address_ok_inv hd
  constructor
  · intro i hi
    unfold BootableRegionDescriptors.get_app_at_slot
    rw [if_pos hi]
  · intro i hi
    have hvalid : (appAt m d.header.app_descriptor_base_address i).is_crc_valid
        = true := by
      have := validateSlotsFrom_ok_inv m d.header.app_descriptor_base_address
        d.header.num_app_slots 0 hv i hi
      simpa using this
    unfold BootableRegionDescriptors.get_app_at_slot
    rw [if_neg (by omega), from_region_of_valid hvalid]

set_option maxRecDepth 100000 in
set_option maxHeartbeats 4000000 in
/-- Witness for C7: a Manager built with `num_app_slots = 3` returns `Ok` for
slots 0, 1, 2 and `InvalidAppSlot` for slot 3. -/
theorem claim_C7_witness :
    (BootableRegionDescriptors.get_app_at_slot
        { base_address := 0, header := BootableRegionDescriptorHeader.new 3 0 32 }
        demo3Mem 0 = .ok (BootableRegionDescriptors.appAt demo3Mem 32 0)) ∧
    (BootableRegionDescriptors.get_app_at_slot
        { base_address := 0, header := BootableRegionDescriptorHeader.new 3 0 32 }
        demo3Mem 1 = .ok (BootableRegionDescriptors.appAt demo3Mem 32 1)) ∧
    (BootableRegionDescriptors.get_app_at_slot
        { base_address := 0, header := BootableRegionDescriptorHeader.new 3 0 32 }
        demo3Mem 2 = .ok (BootableRegionDescriptors.appAt demo3Mem 32 2)) ∧
    (BootableRegionDescriptors.get_app_at_slot
        { base_address := 0, header := BootableRegionDescriptorHeader.new 3 0 32 }
        demo3Mem 3 = .error .InvalidAppSlot) :=
  ⟨(claim_C7 demo3Mem 0
      { base_address := 0, header := BootableRegionDescriptorHeader.new 3 0 32 }
      (by decide)).2 0 (by decide),
   (claim_C7 demo3Mem 0
      { base_address := 0, header := BootableRegionDescriptorHeader.new 3 0 32 }
      (by decide)).2 1 (by decide),
   (claim_C7 demo3Mem 0
      { base_address := 0, header := BootableRegionDescriptorHeader.new 3 0 32 }
      (by decide)).2 2 (by decide),
   (claim_C7 demo3Mem 0
      { base_address := 0, header := BootableRegionDescriptorHeader.new 3 0 32 }
      (by decide)).1 3 (by decide)⟩

/-- `memOfBytes` is unchanged off the updated index. -/
lemma memOfBytes_set_ne (bs : List Nat) (k v j : Nat) (hjk : j ≠ k) :
    memOfBytes (bs.set k v) j = memOfBytes bs j := by
  induction bs generalizing k j with
  | nil => rfl
  | cons b bs ih =>
    cases k with
    | zero =>
      cases j with
      | zero => exact absurd rfl hjk
      | succ j => rfl
    | succ k =>
      cases j with
      | zero => rfl
      | succ j => exact ih k j (by omega)

/-- An `AppImageDescriptor` load depends only on the 44 bytes it covers. -/
lemma AppImageDescriptor.read_congr {m m2 : Mem} {a : Nat}
    (hb : ∀ j, j < APP_IMAGE_DESCRIPTOR_SIZE → m (a + j) = m2 (a + j)) :
    AppImageDescriptor.read m a = AppImageDescriptor.read m2 a := by
  have h0 : m a = m2 a := by simpa using hb 0 (by decide)
  simp only [AppImageDescriptor.read, readU32, byteAt, Nat.add_assoc]
  norm_num [h0, hb 1 (by decide), hb 2 (by decide), hb 3 (by decide), hb 4 (by decide), hb 5 (by decide), hb 6 (by decide), hb 7 (by decide), hb 8 (by decide), hb 9 (by decide), hb 10 (by decide), hb 11 (by decide), hb 12 (by decide), hb 13 (by decide), hb 14 (by decide), hb 15 (by decide), hb 16 (by decide), hb 17 (by decide), hb 18 (by decide), hb 19 (by decide), hb 20 (by decide), hb 21 (by decide), hb 22 (by decide), hb 23 (by decide), hb 24 (by decide), hb 25 (by decide), hb 26 (by decide), hb 27 (by decide), hb 28 (by decide), hb 29 (by decide), hb 30 (by decide), hb 31 (by decide), hb 32 (by decide), hb 33 (by decide), hb 34 (by decide), hb 35 (by decide), hb 36 (by decide), hb 37 (by decide), hb 38 (by decide), hb 39 (by decide), hb 40 (by decide), hb 41 (by decide), hb 42 (by decide), hb 43 (by decide)]

/-- C6: slot addressing is pure byte arithmetic with no bounds check: for
every base address and slot index `i` (unbounded — no comparison against any
slot count), `from_region` interprets exactly the bytes starting at
`base + i * APP_IMAGE_DESCRIPTOR_SIZE` as the descriptor for slot `i`: it
equals `from_address` at that address, and its result depends only on the 44
bytes stored there. -/
theorem claim_C6 :
    (∀ (m : Mem) (base i : Nat),
      AppImageDescriptor.from_region m base i =
        AppImageDescriptor.from_address m
          (base + i * APP_IMAGE_DESCRIPTOR_SIZE)) ∧
    (∀ (m m2 : Mem) (base i : Nat),
      (∀ j, j < APP_IMAGE_DESCRIPTOR_SIZE →
        m (base + i * APP_IMAGE_DESCRIPTOR_SIZE + j) =
          m2 (base + i * APP_IMAGE_DESCRIPTOR_SIZE + j)) →
      AppImageDescriptor.from_region m base i =
        AppImageDescriptor.from_region m2 base i) := by
  refine ⟨fun m base i => rfl, fun m m2 base i hb => ?_⟩
  have hr : AppImageDescriptor.read m (base + i * APP_IMAGE_DESCRIPTOR_SIZE) =
      AppImageDescriptor.read m2 (base + i * APP_IMAGE_DESCRIPTOR_SIZE) :=
    AppImageDescriptor.read_congr hb
  unfold AppImageDescriptor.from_region AppImageDescriptor.from_address
  rw [hr]

/-- Witness for C6: the address equation at a concrete slot, and locality
between two definitionally equal memories. -/
theorem claim_C6_witness :
    (AppImageDescriptor.from_region demoMem 32 0 =
      AppImageDescriptor.from_address demoMem
        (32 + 0 * APP_IMAGE_DESCRIPTOR_SIZE)) ∧
    (AppImageDescriptor.from_region demoMem 32 5 =
      AppImageDescriptor.from_region (fun a => demoMem a) 32 5) :=
  ⟨claim_C6.1 demoMem 32 0,
   claim_C6.2 demoMem (fun a => demoMem a) 32 5 (fun _ _ => rfl)⟩

/-- A header load's signature field only depends on the first 4 bytes. -/
lemma read_set_signature (bs : List Nat) (k v : Nat) (hk : 4 ≤ k) :
    (BootableRegionDescriptorHeader.read (memOfBytes (bs.set k v)) 0).signature =
      (BootableRegionDescriptorHeader.read (memOfBytes bs) 0).signature := by
  show readU32 _ 0 = readU32 _ 0
  simp only [readU32, byteAt, Nat.zero_add]
  rw [memOfBytes_set_ne bs k v 0 (by omega), memOfBytes_set_ne bs k v 1 (by omega),
    memOfBytes_set_ne bs k v 2 (by omega), memOfBytes_set_ne bs k v 3 (by omega)]

/-- C10: modifying a single byte of a valid serialized record, when the
modification does not coincidentally produce another valid checksum, makes
`is_crc_valid` false and parsing return the checksum error variant with
`found ≠ expected` (for the header, provided the modified byte is past the
4-byte signature so the signature gate still passes). -/
theorem claim_C10 :
    (∀ (h : BootableRegionDescriptorHeader) (k v : Nat),
      h.signature = BOOT_REGION_DESCRIPTOR_SIGNATURE →
      h.is_crc_valid = true →
      4 ≤ k → k < 32 →
      memOfBytes h.as_bytes k ≠ v →
      (BootableRegionDescriptorHeader.read
        (memOfBytes (h.as_bytes.set k v)) 0).is_crc_valid = false →
      (BootableRegionDescriptorHeader.read
          (memOfBytes (h.as_bytes.set k v)) 0).header_crc ≠
        (BootableRegionDescriptorHeader.read
          (memOfBytes (h.as_bytes.set k v)) 0).compute_crc ∧
      BootableRegionDescriptorHeader.from_address
          (memOfBytes (h.as_bytes.set k v)) 0 =
        .error (.InvalidHeaderCrc
          (BootableRegionDescriptorHeader.read
            (memOfBytes (h.as_bytes.set k v)) 0).header_crc
          (BootableRegionDescriptorHeader.read
            (memOfBytes (h.as_bytes.set k v)) 0).compute_crc)) ∧
    (∀ (d : AppImageDescriptor) (k v : Nat),
      d.is_crc_valid = true → k < 44 →
      memOfBytes d.as_bytes k ≠ v →
      (AppImageDescriptor.read
        (memOfBytes (d.as_bytes.set k v)) 0).is_crc_valid = false →
      (AppImageDescriptor.read
          (memOfBytes (d.as_bytes.set k v)) 0).descriptor_crc ≠
        (AppImageDescriptor.read
          (memOfBytes (d.as_bytes.set k v)) 0).compute_crc ∧
      AppImageDescriptor.from_address (memOfBytes (d.as_bytes.set k v)) 0 =
        .error (.InvalidAppCrc 0
          (AppImageDescriptor.read
            (memOfBytes (d.as_bytes.set k v)) 0).descriptor_crc
          (AppImageDescriptor.read
            (memOfBytes (d.as_bytes.set k v)) 0).compute_crc)) := by
  constructor
  · intro h k v hsig hval hk4 hk32 hne hbad
    have hs2 : (BootableRegionDescriptorHeader.read (memOfBytes h.as_bytes)
        0).signature = BOOT_REGION_DESCRIPTOR_SIGNATURE := by
      rw [BootableRegionDescriptorHeader.read_as_bytes]
      dsimp only
      rw [hsig]
      decide
    have hs : (BootableRegionDescriptorHeader.read
        (memOfBytes (h.as_bytes.set k v)) 0).signature =
        BOOT_REGION_DESCRIPTOR_SIGNATURE :=
      (read_set_signature h.as_bytes k v hk4).trans hs2
    refine ⟨?_, BootableRegionDescriptorHeader.from_address_of_bad_crc hs hbad⟩
    simpa [BootableRegionDescriptorHeader.is_crc_valid] using hbad
  · intro d k v hval hk hne hbad
    refine ⟨?_, AppImageDescriptor.from_address_of_invalid hbad⟩
    simpa [AppImageDescriptor.is_crc_valid] using hbad

set_option maxRecDepth 100000 in
set_option maxHeartbeats 4000000 in
/-- Witness for C10: corrupting byte 8 of a freshly built header and byte 4
of a freshly built descriptor. -/
theorem claim_C10_witness :
    ((BootableRegionDescriptorHeader.read
        (memOfBytes ((BootableRegionDescriptorHeader.new 1 0 32).as_bytes.set
          8 99)) 0).header_crc ≠
      (BootableRegionDescriptorHeader.read
        (memOfBytes ((BootableRegionDescriptorHeader.new 1 0 32).as_bytes.set
          8 99)) 0).compute_crc ∧
      BootableRegionDescriptorHeader.from_address
          (memOfBytes ((BootableRegionDescriptorHeader.new 1 0 32).as_bytes.set
            8 99)) 0 =
        .error (.InvalidHeaderCrc
          (BootableRegionDescriptorHeader.read
            (memOfBytes ((BootableRegionDescriptorHeader.new 1 0
              32).as_bytes.set 8 99)) 0).header_crc
          (BootableRegionDescriptorHeader.read
            (memOfBytes ((BootableRegionDescriptorHeader.new 1 0
              32).as_bytes.set 8 99)) 0).compute_crc)) ∧
    ((AppImageDescriptor.read
        (memOfBytes ((AppImageDescriptor.new_execute_in_place_image 0 0 0 0 0 0
          0).as_bytes.set 4 7)) 0).descriptor_crc ≠
      (AppImageDescriptor.read
        (memOfBytes ((AppImageDescriptor.new_execute_in_place_image 0 0 0 0 0 0
          0).as_bytes.set 4 7)) 0).compute_crc ∧
      AppImageDescriptor.from_address
          (memOfBytes ((AppImageDescriptor.new_execute_in_place_image 0 0 0 0 0
            0 0).as_bytes.set 4 7)) 0 =
        .error (.InvalidAppCrc 0
          (AppImageDescriptor.read
            (memOfBytes ((AppImageDescriptor.new_execute_in_place_image 0 0 0 0
              0 0 0).as_bytes.set 4 7)) 0).descriptor_crc
          (AppImageDescriptor.read
            (memOfBytes ((AppImageDescriptor.new_execute_in_place_image 0 0 0 0
              0 0 0).as_bytes.set 4 7)) 0).compute_crc)) :=
  ⟨claim_C10.1 (BootableRegionDescriptorHeader.new 1 0 32) 8 99 (by decide)
      (by decide) (by decide) (by decide) (by decide) (by decide),
   claim_C10.2 (AppImageDescriptor.new_execute_in_place_image 0 0 0 0 0 0 0) 4 7
      (by decide) (by decide) (by decide) (by decide)⟩

end SlimloaderDescriptors
